import Mathlib

/-!
Verification development for the `nogging` package (`src/nogging/__init__.py`):
a configuration-driven logger bootstrapper.  The Python source is shallowly
embedded below:

* configuration documents (`LoggerSpec`, `HandlerSpec`) model the parsed YAML
  dictionaries consumed by `Nogging._setup_logger`, keeping the distinctions
  the code observes (key absent vs. key present with `null` vs. present list;
  string vs. integer level values);
* the filesystem is a finite map from directory paths (lists of path
  components, `[]` = filesystem root) to the parse outcome of the `nogging.yaml`
  file in that directory;
* Python exceptions are modelled with `Except PyError`; an exception that the
  source catches is turned into the handled result at the catch site, an
  uncaught one propagates as `.error`;
* the diagnostic lines printed by `log(...)` are modelled as `LogMsg` values
  threaded through the functions that emit them.
-/

deriving instance DecidableEq for Except

/-- A YAML scalar usable as a `level:` value: a severity name or an integer. -/
inductive LevelVal where
  | str (s : String)
  | int (n : Int)
deriving DecidableEq

/-- One entry of a `handlers:` list.  `type` is the mandatory `type:` key
(the schema requires it); the remaining fields are `none` when the key is
absent from the YAML mapping. -/
structure HandlerSpec where
  type : String
  level : Option LevelVal
  format : Option String
  filename : Option String
deriving DecidableEq

/-- The per-logger configuration mapping.  `handlers = none` models the
`handlers` key being absent, `handlers = some none` models `handlers:` present
with a `null` value, and `handlers = some (some l)` a genuine (possibly empty)
list. -/
structure LoggerSpec where
  level : Option LevelVal
  handlers : Option (Option (List HandlerSpec))
deriving DecidableEq

/-- The value found under the top-level key: logger name ↦ `LoggerSpec`,
in document order. -/
abbrev ConfigDocument := List (String × LoggerSpec)

/-- Parse outcome of a `nogging.yaml` file: either `yaml.safe_load` raises a
parse error, or it yields a top-level mapping from keys to config documents. -/
inductive FileContent where
  | malformed
  | mapping (entries : List (String × ConfigDocument))
deriving DecidableEq

/-- The filesystem: which directories contain a `nogging.yaml`, and what it
parses to.  A directory is a list of path components listed innermost
component first (so `/a/b/c` is `["c", "b", "a"]`), which makes
`Path.parent` the list tail; `[]` is the filesystem root. -/
abbrev Fs := List (List String × FileContent)

/-- The Python exceptions that can arise in the embedded code. -/
inductive PyError where
  | fileNotFoundError
  | keyError
  | yamlError
  | attributeError
deriving DecidableEq

/-- Diagnostic lines printed through `log(...)`. -/
inductive LogMsg where
  | infoUsing (dir : List String)
  | warnNotFound
  | errFormatKey (key : String)
  | warnInvalidType (t : String)
deriving DecidableEq

/-- What kind of handler object was constructed (`logging.StreamHandler(sys.stdout)`
or `logging.FileHandler(filename=..., encoding='utf-8')`, whose file mode is the
`logging.FileHandler` default `"a"`, i.e. append). -/
inductive HandlerKind where
  | stream
  | file (filename : String) (mode : String) (encoding : String)
deriving DecidableEq

/-- A handler object of the logging facility.  A freshly constructed handler
has level `NOTSET = 0` and no formatter. -/
structure Handler where
  kind : HandlerKind
  level : Int
  formatter : Option String
deriving DecidableEq

/-- A logger object of the logging facility: a level and an ordered handler
list.  `logging.getLogger` creates loggers with level `NOTSET = 0` and no
handlers, but a pre-existing logger can be in any state. -/
structure Logger where
  level : Int
  handlers : List Handler
deriving DecidableEq

/-- The process-wide logger registry, keyed by logger name
(`logging.getLogger(name)` for a name never configured yields that name's
current state). -/
abbrev Registry := String → Logger

/-- Directory lookup in the filesystem map. -/
def lookupFs (fs : Fs) (p : List String) : Option FileContent :=
  fs.lookup p

/-- Existence test `(p / c).exists()` for the config filename: the directory carries a parse
outcome in the filesystem map. -/
def hasFile (fs : Fs) (p : List String) : Bool :=
  (lookupFs fs p).isSome

/-- The `while p.parent != p:` loop of `conf` (src/nogging/__init__.py:66-72):
starting from the absolute path, test `(p / c).exists()` and break with an
INFO line, otherwise ascend to the parent; if the root is reached (its parent
equals itself) the loop falls through to its `else:` branch, which logs a
WARNING — the root itself is never tested by `exists()`.  Returns the final
value of `p` together with the diagnostics printed. -/
def locate (fs : Fs) : List String → List String × List LogMsg
  | [] => ([], [.warnNotFound])
  | a :: rest =>
    if hasFile fs (a :: rest) then (a :: rest, [.infoUsing (a :: rest)])
    else locate fs rest

/-- The `try: return yaml.safe_load((p / c).open())[key] ...` tail of `conf`
(src/nogging/__init__.py:73-78): opening a missing file raises
`FileNotFoundError`, which is caught and yields `None` silently; a YAML parse
error (`yaml.YAMLError`) is NOT caught and propagates; a parsed mapping
without the top-level key raises `KeyError`, which is caught, logged as a
format error, and yields `None`. -/
def read_top (fs : Fs) (p : List String) (key : String) :
    List LogMsg × Except PyError (Option ConfigDocument) :=
  match lookupFs fs p with
  | none => ([], .ok none)
  | some .malformed => ([], .error .yamlError)
  | some (.mapping m) =>
    match m.lookup key with
    | some d => ([], .ok (some d))
    | none => ([.errFormatKey key], .ok none)

/-- Function `conf(path, c='nogging.yaml', key='nogging')` (src/nogging/__init__.py:64-78):
ascend from the starting directory, then open/parse/extract at the final
directory.  Result: the diagnostics printed and the returned document (or the
propagating exception). -/
def conf (fs : Fs) (path : List String) (key : String) :
    List LogMsg × Except PyError (Option ConfigDocument) :=
  ((locate fs path).2 ++ (read_top fs (locate fs path).1 key).1,
   (read_top fs (locate fs path).1 key).2)

/-- The sequence of directories the `while` loop of `conf` passes through,
starting path first, filesystem root last.  The root is reached but never
tested with `exists()`; it is only probed by the final `open()`. -/
def visited : List String → List (List String)
  | [] => [[]]
  | a :: rest => (a :: rest) :: visited rest

namespace Nogging

/-- Attribute lookup `getattr(logging, s)` restricted to the integer severity constants of the
`logging` module; any other name raises `AttributeError`.  (Non-severity
attributes of the module are outside the document model.) -/
def loggingAttr (s : String) : Option Int :=
  if s = "CRITICAL" then some 50
  else if s = "FATAL" then some 50
  else if s = "ERROR" then some 40
  else if s = "WARNING" then some 30
  else if s = "WARN" then some 30
  else if s = "INFO" then some 20
  else if s = "DEBUG" then some 10
  else if s = "NOTSET" then some 0
  else none

/-- Method `Nogging._get_level` (src/nogging/__init__.py:114-122), applied to the
`level` field of the configuration dict it receives: absent key → `None`;
string value → `getattr(logging, value)` (raising `AttributeError` on an
unknown name); any other value (an integer here) returned as-is. -/
def get_level (lv : Option LevelVal) : Except PyError (Option Int) :=
  match lv with
  | none => .ok none
  | some (.int n) => .ok (some n)
  | some (.str s) =>
    match loggingAttr s with
    | some v => .ok (some v)
    | none => .error .attributeError

/-- Method `Nogging._get_handlers` (src/nogging/__init__.py:124-129) composed with the
`handlers is not None` test at the call site: the function returns `None` both
when the `handlers` key is absent and when it is present with value `null`,
and returns the list otherwise. -/
def get_handlers (config : LoggerSpec) : Option (List HandlerSpec) :=
  match config.handlers with
  | none => none
  | some v => v

/-- Method `Nogging._get_handler` (src/nogging/__init__.py:131-144): `FileHandler`
reads `handler_config['filename']` (raising `KeyError` when the key is
missing) and constructs a file handler with the `logging.FileHandler` default
mode `"a"` (append) and the explicitly passed encoding `'utf-8'`;
`StreamHandler` constructs a stream handler on `sys.stdout`; any other type
logs a WARNING and returns `None`. -/
def get_handler (hc : HandlerSpec) : Except PyError (List LogMsg × Option Handler) :=
  if hc.type = "FileHandler" then
    match hc.filename with
    | none => .error .keyError
    | some f => .ok ([], some ⟨.file f "a" "utf-8", 0, none⟩)
  else if hc.type = "StreamHandler" then
    .ok ([], some ⟨.stream, 0, none⟩)
  else
    .ok ([.warnInvalidType hc.type], none)

/-- Method `Nogging._get_handler_formatter` (src/nogging/__init__.py:146-149):
a formatter built from the `format` pattern when present. -/
def get_handler_formatter (hc : HandlerSpec) : Option String :=
  hc.format

/-- One step of the Python `for _ in logger.handlers: logger.removeHandler(_)`
loop (src/nogging/__init__.py:96-97).  The list iterator holds an index `i`;
at each step it checks `i < len(list)` against the CURRENT list, yields the
element at index `i`, and increments `i`.  `removeHandler` removes exactly
that element (handler objects compare by identity) from the same list the
iterator is walking. -/
def clear_from : Nat → Nat → List Handler → List Handler
  | 0, _, l => l
  | fuel + 1, i, l => if i < l.length then clear_from fuel (i + 1) (l.eraseIdx i) else l

/-- The whole clearing loop `for _ in logger.handlers: logger.removeHandler(_)`
applied to a handler list.  The first argument of `clear_from` is structural
fuel: every iteration both removes one element and advances the index, so the
initial list length bounds the number of iterations
(`clear_from_fuel_irrelevant` below shows any sufficient fuel gives the same
result). -/
def clear_handlers (l : List Handler) : List Handler :=
  clear_from l.length 0 l

/-- Any fuel covering the remaining `length - index` gap yields the same
result of the clearing loop, so `clear_handlers` does not depend on the
particular fuel choice. -/
theorem clear_from_fuel_irrelevant :
    ∀ (f₁ f₂ i : Nat) (l : List Handler), l.length - i ≤ f₁ → l.length - i ≤ f₂ →
      clear_from f₁ i l = clear_from f₂ i l := by
  intro f₁
  induction f₁ with
  | zero =>
    intro f₂ i l h₁ h₂
    have hi : ¬ i < l.length := by omega
    cases f₂ with
    | zero => rfl
    | succ f => simp [clear_from, hi]
  | succ f ih =>
    intro f₂ i l h₁ h₂
    by_cases hi : i < l.length
    · have hlen : (l.eraseIdx i).length = l.length - 1 := by
        simp [List.length_eraseIdx, hi]
      cases f₂ with
      | zero => omega
      | succ g =>
        simp only [clear_from, if_pos hi]
        exact ih g (i + 1) (l.eraseIdx i) (by omega) (by omega)
    · cases f₂ with
      | zero => simp [clear_from, hi]
      | succ g => simp [clear_from, hi]

/-- The `for handler_config in handlers or []:` loop of `Nogging._setup_logger`
(src/nogging/__init__.py:99-112): build the handler (skipping, with a logged
warning, an entry whose type is unknown), attach the formatter if a `format`
is given, set the handler's own level if a `level` is given, and append the
handler to the logger's list. -/
def run_handlers (hs : List HandlerSpec) (logger : Logger) (msgs : List LogMsg) :
    Except PyError (Logger × List LogMsg) :=
  match hs with
  | [] => .ok (logger, msgs)
  | hc :: rest =>
    match get_handler hc with
    | .error e => .error e
    | .ok (ms, none) => run_handlers rest logger (msgs ++ ms)
    | .ok (ms, some h0) =>
      let h1 := match get_handler_formatter hc with
        | some f => { h0 with formatter := some f }
        | none => h0
      match get_level hc.level with
      | .error e => .error e
      | .ok lvl? =>
        let h2 := match lvl? with
          | some v => { h1 with level := v }
          | none => h1
        run_handlers rest { logger with handlers := logger.handlers ++ [h2] } (msgs ++ ms)

/-- Method `Nogging._setup_logger` (src/nogging/__init__.py:86-112) acting on the
named logger's state: set the level when the spec gives one; when the
`handlers` value is a list (key present and not `null`), run the clearing
loop and then attach the handlers built from the list; otherwise leave the
handler list alone. -/
def setup_logger (config : LoggerSpec) (logger : Logger) :
    Except PyError (Logger × List LogMsg) :=
  match get_level config.level with
  | .error e => .error e
  | .ok lvl? =>
    let logger1 := match lvl? with
      | some v => { logger with level := v }
      | none => logger
    match get_handlers config with
    | none => .ok (logger1, [])
    | some hs =>
      run_handlers hs { logger1 with handlers := clear_handlers logger1.handlers } []

/-- The `for k, v in (conf(path) or {}).items(): self._setup_logger(...)` loop
of `Nogging.setup` (src/nogging/__init__.py:82-84), acting on the registry.
Diagnostics go to stdout and are not part of the registry state. -/
def setup_doc : ConfigDocument → Registry → Except PyError Registry
  | [], r => .ok r
  | (name, spec) :: rest, r =>
    match setup_logger spec (r name) with
    | .error e => .error e
    | .ok (lg, _) => setup_doc rest (fun n => if n = name then lg else r n)

/-- Method `Nogging.setup` (src/nogging/__init__.py:82-84): resolve the document
(`conf(path) or {}` — an absent document configures nothing; an exception out
of `conf` propagates) and apply it to the registry. -/
def setup (fs : Fs) (path : List String) (r : Registry) : Except PyError Registry :=
  match (conf fs path "nogging").2 with
  | .error e => .error e
  | .ok d? => setup_doc (d?.getD []) r

end Nogging

/-- Lemma: `run_handlers` never touches the logger's own level: the handler loop only
appends to the handler list. -/
theorem run_handlers_level :
    ∀ (hs : List HandlerSpec) (lg lg' : Logger) (ms ms' : List LogMsg),
      Nogging.run_handlers hs lg ms = .ok (lg', ms') → lg'.level = lg.level := by
  intro hs
  induction hs with
  | nil =>
    intro lg lg' ms ms' hok
    simp [Nogging.run_handlers] at hok
    simp [hok.1]
  | cons hc rest ih =>
    intro lg lg' ms ms' hok
    cases hg : Nogging.get_handler hc with
    | error e => simp [Nogging.run_handlers, hg] at hok
    | ok p =>
      obtain ⟨ms0, h?⟩ := p
      cases h? with
      | none =>
        simp only [Nogging.run_handlers, hg] at hok
        exact ih _ _ _ _ hok
      | some h0 =>
        cases hl : Nogging.get_level hc.level with
        | error e => simp [Nogging.run_handlers, hg, hl] at hok
        | ok lvl? =>
          simp only [Nogging.run_handlers, hg, hl] at hok
          simpa using ih _ _ _ _ hok

/-- When the `handlers` value that `_get_handlers` yields is `None` (key
absent, or present with `null`), `_setup_logger` leaves the handler list of
the logger untouched. -/
theorem setup_logger_keeps_handlers :
    ∀ (spec : LoggerSpec) (lg lg' : Logger) (ms : List LogMsg),
      Nogging.get_handlers spec = none →
      Nogging.setup_logger spec lg = .ok (lg', ms) → lg'.handlers = lg.handlers := by
  intro spec lg lg' ms hg hok
  cases hl : Nogging.get_level spec.level with
  | error e => simp [Nogging.setup_logger, hl] at hok
  | ok v =>
    cases v with
    | none =>
      simp [Nogging.setup_logger, hl, hg] at hok
      rw [← hok.1]
    | some w =>
      simp [Nogging.setup_logger, hl, hg] at hok
      rw [← hok.1]

/-- The level `_setup_logger` leaves on the logger is the one `_get_level`
resolved when it resolved one, and the logger's previous level otherwise. -/
theorem setup_logger_level :
    ∀ (spec : LoggerSpec) (lg lg' : Logger) (ms : List LogMsg) (v : Option Int),
      Nogging.get_level spec.level = .ok v →
      Nogging.setup_logger spec lg = .ok (lg', ms) → lg'.level = v.getD lg.level := by
  intro spec lg lg' ms v hl hok
  cases hg : Nogging.get_handlers spec with
  | none =>
    cases v with
    | none =>
      simp [Nogging.setup_logger, hl, hg] at hok
      simp [← hok.1]
    | some w =>
      simp [Nogging.setup_logger, hl, hg] at hok
      simp [← hok.1]
  | some hs =>
    cases v with
    | none =>
      simp only [Nogging.setup_logger, hl, hg] at hok
      simpa using run_handlers_level _ _ _ _ _ hok
    | some w =>
      simp only [Nogging.setup_logger, hl, hg] at hok
      simpa using run_handlers_level _ _ _ _ _ hok

/-- C4: for every logger and every `LoggerSpec` without a `handlers` key
(level-only update), `_setup_logger` leaves the logger's pre-existing handler
list unchanged in count, type, and order (the lists are equal). -/
theorem nogging_C4 :
    ∀ (spec : LoggerSpec) (lg lg' : Logger) (ms : List LogMsg),
      spec.handlers = none →
      Nogging.setup_logger spec lg = .ok (lg', ms) → lg'.handlers = lg.handlers := by
  intro spec lg lg' ms h hok
  exact setup_logger_keeps_handlers spec lg lg' ms (by simp [Nogging.get_handlers, h]) hok

/-- Witness for C4: a level-only spec applied to a logger holding one stream
handler keeps that handler list. -/
theorem nogging_C4_witness :
    (Logger.mk 7 [⟨.stream, 0, none⟩]).handlers = (Logger.mk 0 [⟨.stream, 0, none⟩]).handlers :=
  nogging_C4 ⟨some (.int 7), none⟩ ⟨0, [⟨.stream, 0, none⟩]⟩ ⟨7, [⟨.stream, 0, none⟩]⟩ []
    rfl (by decide)

/-- C10: a `LoggerSpec` whose `handlers` key is present but `null` behaves
exactly like one with the key absent — `_setup_logger` computes the same
result, and in particular the pre-existing handlers are neither removed nor
replaced. -/
theorem nogging_C10 :
    ∀ (spec : LoggerSpec) (lg : Logger),
      spec.handlers = some none →
      Nogging.setup_logger spec lg = Nogging.setup_logger ⟨spec.level, none⟩ lg ∧
      (∀ (lg' : Logger) (ms : List LogMsg),
        Nogging.setup_logger spec lg = .ok (lg', ms) → lg'.handlers = lg.handlers) := by
  intro spec lg h
  constructor
  · simp only [Nogging.setup_logger, Nogging.get_handlers, h]
  · intro lg' ms hok
    exact setup_logger_keeps_handlers spec lg lg' ms (by simp [Nogging.get_handlers, h]) hok

/-- Witness for C10: `handlers: null` on a logger holding one stream handler
equals the absent-key update. -/
theorem nogging_C10_witness :
    Nogging.setup_logger ⟨some (.int 7), some none⟩ ⟨0, [⟨.stream, 0, none⟩]⟩ =
      Nogging.setup_logger ⟨some (.int 7), none⟩ ⟨0, [⟨.stream, 0, none⟩]⟩ :=
  (nogging_C10 ⟨some (.int 7), some none⟩ ⟨0, [⟨.stream, 0, none⟩]⟩ rfl).1

/-- C9: when `_setup_logger` succeeds, the logger's level is the numeric
constant for a severity-name string (`DEBUG`→10, `INFO`→20, `WARNING`→30,
`ERROR`→40, `CRITICAL`→50), an integer level is used directly, and an absent
`level` key leaves the logger's previous level untouched. -/
theorem nogging_C9 :
    ∀ (spec : LoggerSpec) (lg lg' : Logger) (ms : List LogMsg),
      Nogging.setup_logger spec lg = .ok (lg', ms) →
      (spec.level = none → lg'.level = lg.level) ∧
      (∀ n : Int, spec.level = some (.int n) → lg'.level = n) ∧
      (spec.level = some (.str "DEBUG") → lg'.level = 10) ∧
      (spec.level = some (.str "INFO") → lg'.level = 20) ∧
      (spec.level = some (.str "WARNING") → lg'.level = 30) ∧
      (spec.level = some (.str "ERROR") → lg'.level = 40) ∧
      (spec.level = some (.str "CRITICAL") → lg'.level = 50) := by
  intro spec lg lg' ms hok
  refine ⟨?_, ?_, ?_, ?_, ?_, ?_, ?_⟩
  · intro h
    simpa using setup_logger_level spec lg lg' ms none (by rw [h]; rfl) hok
  · intro n h
    simpa using setup_logger_level spec lg lg' ms (some n) (by rw [h]; rfl) hok
  · intro h
    simpa using setup_logger_level spec lg lg' ms (some 10) (by rw [h]; decide) hok
  · intro h
    simpa using setup_logger_level spec lg lg' ms (some 20) (by rw [h]; decide) hok
  · intro h
    simpa using setup_logger_level spec lg lg' ms (some 30) (by rw [h]; decide) hok
  · intro h
    simpa using setup_logger_level spec lg lg' ms (some 40) (by rw [h]; decide) hok
  · intro h
    simpa using setup_logger_level spec lg lg' ms (some 50) (by rw [h]; decide) hok

/-- Witness for C9: a spec with `level: DEBUG` drives a fresh logger to
numeric level 10. -/
theorem nogging_C9_witness : (Logger.mk 10 []).level = 10 := by
  have h := nogging_C9 ⟨some (.str "DEBUG"), none⟩ ⟨0, []⟩ ⟨10, []⟩ [] (by decide)
  exact h.2.2.1 rfl

/-- The C5 scenario: a logger spec with `level: DEBUG` and handler list
`[ {type: StreamHandler, level: INFO}, {type: Bogus},
   {type: StreamHandler, format: "%(message)s"} ]`. -/
def bogusMiddleSpec : LoggerSpec :=
  ⟨some (.str "DEBUG"),
   some (some [⟨"StreamHandler", some (.str "INFO"), none, none⟩,
               ⟨"Bogus", none, none, none⟩,
               ⟨"StreamHandler", none, some "%(message)s", none⟩])⟩

/-- C5: applying a spec whose handler list is
`[StreamHandler, Bogus, StreamHandler]` to any logger attaches exactly the two
stream handlers, in their original relative order, logs one warning for the
unknown `Bogus` type, still applies the logger's level change, and never
raises: the unknown type aborts nothing. -/
theorem nogging_C5 :
    ∀ lg : Logger,
      Nogging.setup_logger bogusMiddleSpec lg =
        .ok (⟨10, Nogging.clear_handlers lg.handlers ++
                    [⟨.stream, 20, none⟩, ⟨.stream, 0, some "%(message)s"⟩]⟩,
             [.warnInvalidType "Bogus"]) := by
  intro lg
  have h : Nogging.setup_logger bogusMiddleSpec lg =
      .ok (⟨10, (Nogging.clear_handlers lg.handlers ++
                    [⟨.stream, 20, none⟩]) ++ [⟨.stream, 0, some "%(message)s"⟩]⟩,
           [.warnInvalidType "Bogus"]) := rfl
  simpa [List.append_assoc] using h

/-- C8: a `FileHandler` entry without `filename` raises (`KeyError` out of
`handler_config['filename']`) and the error aborts the handler loop and the
whole document application rather than being absorbed; with a `filename`, the
constructed handler appends (`logging.FileHandler` default mode `"a"`) to that
file with UTF-8 encoding. -/
theorem nogging_C8 :
    ∀ (lv : Option LevelVal) (fmt : Option String),
      Nogging.get_handler ⟨"FileHandler", lv, fmt, none⟩ = .error .keyError ∧
      (∀ f : String, Nogging.get_handler ⟨"FileHandler", lv, fmt, some f⟩ =
        .ok ([], some ⟨.file f "a" "utf-8", 0, none⟩)) ∧
      (∀ (lg : Logger) (rest : List HandlerSpec) (ms : List LogMsg),
        Nogging.run_handlers (⟨"FileHandler", lv, fmt, none⟩ :: rest) lg ms =
          .error .keyError) ∧
      (∀ (name : String) (restDoc : ConfigDocument) (r : Registry),
        Nogging.setup_doc
            ((name, ⟨none, some (some [⟨"FileHandler", lv, fmt, none⟩])⟩) :: restDoc) r =
          .error .keyError) := by
  intro lv fmt
  exact ⟨rfl, fun f => rfl, fun lg rest ms => rfl, fun name restDoc r => rfl⟩

/-- C2 is a code bug: evaluating `_setup_logger` with `handlers: []` on a
logger that holds two handlers leaves ONE handler (the original second one),
because `for _ in logger.handlers: logger.removeHandler(_)` removes elements
from the very list the iterator is walking and therefore skips every other
element.  The claim (and the spec's "remove every handler") says zero remain. -/
theorem nogging_C2_code_bug :
    Nogging.setup_logger ⟨none, some (some [])⟩
        ⟨0, [⟨.stream, 0, none⟩, ⟨.file "x.log" "a" "utf-8", 0, none⟩]⟩ =
      .ok (⟨0, [⟨.file "x.log" "a" "utf-8", 0, none⟩]⟩, []) ∧
    ([⟨.file "x.log" "a" "utf-8", 0, none⟩] : List Handler) ≠ [] := by
  exact ⟨by decide, by decide⟩

/-- The C1 failing document: one logger with two `StreamHandler` entries. -/
def twoStreamDoc : ConfigDocument :=
  [("app", ⟨none, some (some [⟨"StreamHandler", none, none, none⟩,
                              ⟨"StreamHandler", none, none, none⟩])⟩)]

/-- A registry in which every logger is fresh (level `NOTSET`, no handlers). -/
def freshRegistry : Registry := fun _ => ⟨0, []⟩

/-- C1 is a code bug: applying `twoStreamDoc` once to a fresh registry leaves
logger "app" with 2 handlers, while applying it twice leaves 3 — the clearing
loop removed only the first of the 2 handlers present at the second
application (it mutates the list it iterates), so re-application is NOT
idempotent, contrary to the claim and the spec's stated invariant. -/
theorem nogging_C1_code_bug :
    (Nogging.setup_doc twoStreamDoc freshRegistry).map (fun r => r "app") =
      .ok ⟨0, [⟨.stream, 0, none⟩, ⟨.stream, 0, none⟩]⟩ ∧
    ((match Nogging.setup_doc twoStreamDoc freshRegistry with
      | .ok r1 => Nogging.setup_doc twoStreamDoc r1
      | .error e => .error e : Except PyError Registry)).map (fun r => r "app") =
      .ok ⟨0, [⟨.stream, 0, none⟩, ⟨.stream, 0, none⟩, ⟨.stream, 0, none⟩]⟩ := by
  exact ⟨by decide, by decide⟩

/-- The filesystem root is always in the sequence of directories the search
loop passes through. -/
theorem root_mem_visited : ∀ p : List String, [] ∈ visited p := by
  intro p
  induction p with
  | nil => simp [visited]
  | cons a rest ih => simpa [visited] using ih

/-- The search loop stops at the first directory of its walk that contains
the config file: if `d` is on the walk, is not the root, contains the file,
and no directory visited before `d` contains it, the loop ends at `d` with
the "using config file" diagnostic. -/
theorem locate_finds (fs : Fs) :
    ∀ (p d : List String), d ∈ visited p → d ≠ [] → hasFile fs d = true →
      (∀ e ∈ (visited p).takeWhile (fun e => e != d), hasFile fs e = false) →
      locate fs p = (d, [.infoUsing d]) := by
  intro p
  induction p with
  | nil =>
    intro d hmem hne _ _
    simp [visited] at hmem
    exact absurd hmem hne
  | cons a rest ih =>
    intro d hmem hne hfile hbefore
    by_cases hd : a :: rest = d
    · subst hd
      simp [locate, hfile]
    · have hne2 : ((a :: rest) != d) = true := by simp [hd]
      have hnofile : hasFile fs (a :: rest) = false := by
        apply hbefore
        simp [visited, List.takeWhile_cons, hne2]
      have hmem' : d ∈ visited rest := by
        simp [visited] at hmem
        rcases hmem with h | h
        · exact absurd h.symm hd
        · exact h
      have hbefore' : ∀ e ∈ (visited rest).takeWhile (fun e => e != d),
          hasFile fs e = false := by
        intro e he
        apply hbefore
        simp [visited, List.takeWhile_cons, hne2]
        right
        exact he
      simp only [locate, hnofile, Bool.false_eq_true, if_false]
      exact ih d hmem' hne hfile hbefore'

/-- When no directory of the walk contains the config file, the loop runs to
the filesystem root and falls into its `else:` branch, logging the
"not found" warning. -/
theorem locate_root (fs : Fs) :
    ∀ p : List String, (∀ e ∈ visited p, hasFile fs e = false) →
      locate fs p = ([], [.warnNotFound]) := by
  intro p
  induction p with
  | nil => intro _; rfl
  | cons a rest ih =>
    intro h
    have h1 : hasFile fs (a :: rest) = false := h _ (by simp [visited])
    have h2 : ∀ e ∈ visited rest, hasFile fs e = false := by
      intro e he
      exact h e (by simp [visited]; right; exact he)
    simp only [locate, h1, Bool.false_eq_true, if_false]
    exact ih h2

/-- C6: the search checks the starting directory first and ascends one parent
at a time, and the first (nearest-ancestor) match wins: if `d` is the nearest
directory on the upward walk from `p` that holds the config file, `conf`
reads the document found at `d` — in particular, from `/a/b/c` with the file
only at `/a` it reads `/a`'s file, and from `/a` itself it stops immediately
(there `d = p` and the "before `d`" condition is vacuous). -/
theorem nogging_C6 :
    ∀ (fs : Fs) (p d : List String) (key : String),
      d ∈ visited p → d ≠ [] → hasFile fs d = true →
      (∀ e ∈ (visited p).takeWhile (fun e => e != d), hasFile fs e = false) →
      locate fs p = (d, [.infoUsing d]) ∧
      conf fs p key = ([.infoUsing d] ++ (read_top fs d key).1, (read_top fs d key).2) := by
  intro fs p d key h1 h2 h3 h4
  have hl := locate_finds fs p d h1 h2 h3 h4
  exact ⟨hl, by simp [conf, hl]⟩

/-- The C6 scenario filesystem: the config file exists only in `/a`
(innermost-first path `["a"]`), holding one logger under the `nogging` key. -/
def ancestorFs : Fs :=
  [(["a"], .mapping [("nogging", [("app", ⟨some (.int 20), none⟩)])])]

/-- Witness for C6: resolving from `/a/b/c` (path `["c","b","a"]`) stops at
`/a` and returns the document stored there; resolving from `/a` itself stops
immediately at `/a`. -/
theorem nogging_C6_witness :
    locate ancestorFs ["c", "b", "a"] = (["a"], [.infoUsing ["a"]]) ∧
    (conf ancestorFs ["c", "b", "a"] "nogging").2 =
      .ok (some [("app", ⟨some (.int 20), none⟩)]) ∧
    locate ancestorFs ["a"] = (["a"], [.infoUsing ["a"]]) := by
  refine ⟨(nogging_C6 ancestorFs ["c", "b", "a"] ["a"] "nogging"
      (by decide) (by decide) (by decide) (by decide)).1, ?_,
    (nogging_C6 ancestorFs ["a"] ["a"] "nogging"
      (by decide) (by decide) (by decide) (by decide)).1⟩
  have h := (nogging_C6 ancestorFs ["c", "b", "a"] ["a"] "nogging"
      (by decide) (by decide) (by decide) (by decide)).2
  rw [h]
  decide

/-- C7: when no directory of the upward walk (root included) contains the
config file, the walk ends at the root with a warning, `conf` performs its
single final open attempt at the root boundary (`read_top` at `[]`), the
raised `FileNotFoundError` is swallowed, and the caller gets an absent
document with no exception. -/
theorem nogging_C7 :
    ∀ (fs : Fs) (p : List String) (key : String),
      (∀ e ∈ visited p, hasFile fs e = false) →
      locate fs p = ([], [.warnNotFound]) ∧
      (conf fs p key).2 = (read_top fs [] key).2 ∧
      conf fs p key = ([.warnNotFound], .ok none) := by
  intro fs p key h
  have hl := locate_root fs p h
  have hroot : hasFile fs [] = false := h [] (root_mem_visited p)
  have hnone : lookupFs fs [] = none := by
    cases hx : lookupFs fs [] with
    | none => rfl
    | some c => simp [hasFile, hx] at hroot
  refine ⟨hl, ?_, ?_⟩
  · simp [conf, hl]
  · simp [conf, hl, read_top, hnone]

/-- A filesystem whose only config file sits outside the ancestor chain of
the C7 witness path. -/
def offChainFs : Fs := [(["z"], .mapping [("nogging", [])])]

/-- Witness for C7: resolving from `/a/b` (path `["b","a"]`) with the file
only under `/z` warns and returns an absent document without raising. -/
theorem nogging_C7_witness :
    locate offChainFs ["b", "a"] = ([], [.warnNotFound]) ∧
    conf offChainFs ["b", "a"] "nogging" = ([.warnNotFound], .ok none) := by
  have h := nogging_C7 offChainFs ["b", "a"] "nogging" (by decide)
  exact ⟨h.1, h.2.2⟩

/-- The C3 counterexample filesystem: the starting directory holds a config
file that does not parse. -/
def malformedFs : Fs := [(["proj"], .malformed)]

/-- Counterexample to C3 as stated: a YAML parse error does NOT result in an
empty/absent document — `conf` lets the exception propagate (`yaml.YAMLError`
is not among the caught exception types at src/nogging/__init__.py:75-77). -/
theorem nogging_C3_counterexample :
    (conf malformedFs ["proj"] "nogging").2 = .error .yamlError ∧
    (conf malformedFs ["proj"] "nogging").2 ≠ .ok none := by
  exact ⟨by decide, by decide⟩

/-- C3 amended: the file-missing case and the missing-top-level-key case both
return an empty/absent document without raising, distinguished only in the
logged diagnostics (the key-missing case adds one format-error line to the
locator's output); a genuine YAML parse error, however, propagates to the
caller as an exception. -/
theorem nogging_C3_amended :
    ∀ (fs : Fs) (p : List String) (key : String),
      (lookupFs fs (locate fs p).1 = none →
        conf fs p key = ((locate fs p).2, .ok none)) ∧
      (∀ m, lookupFs fs (locate fs p).1 = some (.mapping m) → m.lookup key = none →
        conf fs p key = ((locate fs p).2 ++ [.errFormatKey key], .ok none)) ∧
      (lookupFs fs (locate fs p).1 = some .malformed →
        (conf fs p key).2 = .error .yamlError) := by
  intro fs p key
  refine ⟨?_, ?_, ?_⟩
  · intro h
    simp [conf, read_top, h]
  · intro m h1 h2
    simp [conf, read_top, h1, h2]
  · intro h
    simp [conf, read_top, h]

/-- Witness for the amended C3: a missing file yields only the not-found
warning, a parsed file without the `nogging` key yields the format-error
line, both with an absent document and no exception; a malformed file makes
`conf` raise. -/
theorem nogging_C3_amended_witness :
    conf ([] : Fs) ["w"] "nogging" = ([.warnNotFound], .ok none) ∧
    conf [(["w"], FileContent.mapping [("other", [])])] ["w"] "nogging" =
      ([.infoUsing ["w"], .errFormatKey "nogging"], .ok none) ∧
    (conf [(["w"], FileContent.malformed)] ["w"] "nogging").2 = .error .yamlError := by
  refine ⟨?_, ?_, ?_⟩
  · have h := (nogging_C3_amended ([] : Fs) ["w"] "nogging").1 (by decide)
    rw [h]; decide
  · have h := (nogging_C3_amended [(["w"], FileContent.mapping [("other", [])])]
        ["w"] "nogging").2.1 [("other", [])] (by decide) (by decide)
    rw [h]; decide
  · exact (nogging_C3_amended [(["w"], FileContent.malformed)] ["w"] "nogging").2.2 (by decide)
